import Mathlib

/-!
Shallow embedding of `transloader` (`src/transloader/client.py`), a Python
client for the TransloadIt media-processing HTTP API, together with proofs
about its behaviour.

Modelling conventions:
* Python/JSON values are the inductive `PyVal`; a decoded JSON object (a
  Python `dict`) is an association list `JObj` with distinct keys, first
  match wins on lookup (Python dicts have unique keys).
* An HTTP response (a `requests` response object) is `Response`: its status
  code, its raw body text, and `json` — the decoded body when the body is a
  JSON object, `Option.none` otherwise (old `requests` exposes `response.json`
  as a property that is `None` when the body does not decode).
* Raising `TransloadItError` is modelled with `Except TransloadItError`;
  a Python `KeyError k` from `d[k]` is modelled with `Except String`.
* Network effects are explicit: a function that performs an HTTP call takes
  the server's reply as an argument and returns the new local state; fetch
  counts are returned alongside so that caching claims are statements about
  how many calls were made.
-/

namespace Transloader

/-- A Python value as this client sees them: `None`, booleans, integers,
strings, `datetime.datetime` objects, lists and dicts.  JSON-decoded values
never contain `pydatetime`; request parameters can. -/
inductive PyVal where
  | pynone
  | pybool (b : Bool)
  | pyint (n : Int)
  | pystr (s : String)
  | pydatetime (year month day hour minute second : Nat)
  | pylist (xs : List PyVal)
  | pydict (kvs : List (String × PyVal))

/-- A decoded JSON object / Python dict: an association list, unique keys. -/
abbrev JObj := List (String × PyVal)

/-- `d.get(k)`: the value bound to `k`, `None` (here `Option.none`) when
absent. -/
def jget (d : JObj) (k : String) : Option PyVal :=
  match d with
  | [] => Option.none
  | (k', v) :: rest => if k' == k then some v else jget rest k

/-- `d[k]`: the value bound to `k`, raising `KeyError k` when absent. -/
def dictItem (d : JObj) (k : String) : Except String PyVal :=
  match jget d k with
  | some v => Except.ok v
  | Option.none => Except.error k

/-- Python truthiness of a value: `None`, `False`, `0`, `""`, `[]` and `{}`
are falsy, everything else truthy (`datetime` objects are always truthy). -/
def PyVal.truthy : PyVal → Bool
  | .pynone => false
  | .pybool b => b
  | .pyint n => n != 0
  | .pystr s => !s.isEmpty
  | .pydatetime _ _ _ _ _ _ => true
  | .pylist xs => !xs.isEmpty
  | .pydict kvs => !kvs.isEmpty

/-- Truthiness of `d.get(k)`-like results: `None` is falsy. -/
def truthyOpt : Option PyVal → Bool
  | Option.none => false
  | some v => v.truthy

/-- Python `v == "lit"` for a string literal on the right: true exactly when
`v` is the same string; any non-string value compares unequal (no error). -/
def PyVal.eqPyStr : PyVal → String → Bool
  | .pystr t, s => t == s
  | _, _ => false

/-- An HTTP response as the code reads it: `status_code`, raw body `text`,
and `json`, the decoded body when it is a JSON object, else `Option.none`. -/
structure Response where
  status_code : Int
  text : String
  json : Option JObj

/-- The one error kind, `TransloadItError(message, code, status)`.  `message`
and `code` are the values the code passes: `response.json.get(...)` results
(possibly `None`) or the raw body text wrapped as a string. -/
structure TransloadItError where
  message : Option PyVal
  code : Option PyVal
  status : Int

/-- Truthiness of `response.json`: `None` is falsy, an empty dict is falsy. -/
def jsonTruthy : Option JObj → Bool
  | Option.none => false
  | some d => !d.isEmpty

/-- `response.json.get(k)` guarded by the short-circuit `and` in the code:
only evaluated when `response.json` is truthy (so here, total anyway). -/
def jsonGet (j : Option JObj) (k : String) : Option PyVal :=
  match j with
  | Option.none => Option.none
  | some d => jget d k

/-- `_parse_response(response)` (client.py lines 23-29): raise
`TransloadItError(json.get('message'), json.get('error'), status)` when
`response.json and response.json.get('error')`; else raise
`TransloadItError(text, None, status)` when the status is `< 200` or
`>= 400`; else return the response unchanged. -/
def _parse_response (r : Response) : Except TransloadItError Response :=
  if jsonTruthy r.json && truthyOpt (jsonGet r.json "error") then
    Except.error ⟨jsonGet r.json "message", jsonGet r.json "error", r.status_code⟩
  else if r.status_code < 200 || 400 ≤ r.status_code then
    Except.error ⟨some (.pystr r.text), Option.none, r.status_code⟩
  else
    Except.ok r

/-- Whether `_parse_response` raised. -/
def isRemoteError : Except TransloadItError Response → Bool
  | Except.error _ => true
  | Except.ok _ => false

/-- Stated from the spec's words: the body is JSON containing a truthy
`error` field. -/
def bodyDeclaresError (r : Response) : Bool :=
  match r.json with
  | Option.none => false
  | some d => truthyOpt (jget d "error")

/-- Stated from the spec's words: the HTTP status is outside `[200, 400)`. -/
def statusOutside (r : Response) : Bool :=
  r.status_code < 200 || 400 ≤ r.status_code

/-- `Assembly.completed` (client.py 208-213) as a function of the available
info mapping: `self.info['ok'] == 'ASSEMBLY_COMPLETED'`; the subscript
raises `KeyError` when `'ok'` is absent. -/
def Assembly.completed (info : JObj) : Except String Bool :=
  (dictItem info "ok").map (PyVal.eqPyStr · "ASSEMBLY_COMPLETED")

/-- `Assembly.canceled` (client.py 215-220) as a function of the available
info mapping: `self.info['ok'] == 'ASSEMBLY_CANCELED'`. -/
def Assembly.canceled (info : JObj) : Except String Bool :=
  (dictItem info "ok").map (PyVal.eqPyStr · "ASSEMBLY_CANCELED")

/-- A status accessor came back `True` (as opposed to `False` or a raised
`KeyError`). -/
def isOkTrue : Except String Bool → Bool
  | Except.ok true => true
  | _ => false

/-- An `Assembly` object's attributes (client.py 188-191): the stored status
`url` and the `_info` cell, which `__init__` sets to the kwargs dict (so `{}`
when constructed from a bare url) and `refresh` sets to `None`. -/
structure Assembly where
  url : String
  _info : Option JObj

/-- `not self._info`: Python falsiness of the cell — `None` and the empty
dict both count as absent. -/
def infoAbsent : Option JObj → Bool
  | Option.none => true
  | some d => d.isEmpty

/-- The `info` property (client.py 200-206) on the success path: when
`not self._info`, GET the url (the server's reply body is the argument
`doc`), cache it and return it, else return the cached dict.  The result is
`(returned info, updated object, number of HTTP fetches performed)`. -/
def Assembly.infoAccess (a : Assembly) (doc : JObj) : JObj × Assembly × Nat :=
  if infoAbsent a._info then (doc, { a with _info := some doc }, 1)
  else (a._info.getD [], a, 0)

/-- `n` consecutive reads of the `info` property against a server that keeps
answering `doc`; returns the final object and the total fetch count. -/
def Assembly.accessRun (a : Assembly) (doc : JObj) : Nat → Assembly × Nat
  | 0 => (a, 0)
  | n + 1 =>
    let r := a.infoAccess doc
    let rest := r.2.1.accessRun doc n
    (rest.1, r.2.2 + rest.2)

/-- `refresh()` (client.py 193-198): set `self._info = None`, then return
`self.info` — i.e. immediately read the property on the cleared cell. -/
def Assembly.refresh (a : Assembly) (doc : JObj) : JObj × Assembly × Nat :=
  Assembly.infoAccess { a with _info := Option.none } doc

/-- `cancel()` (client.py 222-226): `return requests.delete(self.url)`.  The
server's reply to the DELETE is the argument; the method returns it as-is and
touches no attribute, so the result pairs the reply with the unchanged
object. -/
def Assembly.cancel (a : Assembly) (deleteReply : Response) : Response × Assembly :=
  (deleteReply, a)

/-- One page of the GET `/assemblies` listing as the generator reads it:
`data['count']` and `data['items']`. -/
structure PageResult where
  count : Nat
  items : List JObj

/-- The loop state of the `assemblies` generator (client.py 136-186): the
current `page` variable, the items yielded so far (in order), how many page
fetches were issued, and whether the loop has hit a `break`. -/
structure ListState where
  page : Nat
  yielded : List JObj
  fetches : Nat
  done : Bool

/-- One iteration of the `while True` loop in `assemblies`: fetch the current
page (the server's reply for page `p` is `server p`); `break` when it has no
items; otherwise yield its items, then `page += 1` when
`pos = page * pagesize < count`, else `break`.  Once done, nothing more is
fetched. -/
def assembliesStep (server : Nat → PageResult) (pagesize : Nat)
    (s : ListState) : ListState :=
  if s.done then s
  else
    let pr := server s.page
    if pr.items.isEmpty then
      { s with fetches := s.fetches + 1, done := true }
    else if s.page * pagesize < pr.count then
      { page := s.page + 1, yielded := s.yielded ++ pr.items,
        fetches := s.fetches + 1, done := false }
    else
      { s with
          yielded := s.yielded ++ pr.items
          fetches := s.fetches + 1
          done := true }

/-- `n` iterations of the generator loop. -/
def assembliesRun (server : Nat → PageResult) (pagesize : Nat)
    (s : ListState) : Nat → ListState
  | 0 => s
  | n + 1 => assembliesStep server pagesize (assembliesRun server pagesize s n)

/-- The generator as entered with a starting page: nothing yielded, nothing
fetched. -/
def listStart (page : Nat) : ListState := ⟨page, [], 0, false⟩

/-- The decimal digit character for `n % 10`. -/
def digitChar (n : Nat) : Char := Char.ofNat (48 + n % 10)

/-- `%m`, `%d`, `%H`, `%M`, `%S`: two decimal digits, zero padded (exact for
the field ranges a Python `datetime` guarantees, all below 100). -/
def pad2 (n : Nat) : String := ⟨[digitChar (n / 10), digitChar n]⟩

/-- `%Y`: the year, four decimal digits, zero padded (CPython documents `%Y`
as `0001, 0002, …, 9999`; a `datetime` year never exceeds 9999). -/
def pad4 (n : Nat) : String :=
  ⟨[digitChar (n / 1000), digitChar (n / 100), digitChar (n / 10), digitChar n]⟩

/-- `dt.strftime('%Y-%m-%d %H:%M:%S')` — the format `_timestr` uses
(client.py 18). -/
def strftimeDashFmt (y mo d h mi s : Nat) : String :=
  pad4 y ++ "-" ++ pad2 mo ++ "-" ++ pad2 d ++ " " ++
    pad2 h ++ ":" ++ pad2 mi ++ ":" ++ pad2 s

/-- `dt.strftime('%Y/%m/%d %H:%M:%S')` — the format `_auth` uses for
`expires` (client.py 59): slashes between the date components. -/
def strftimeSlashFmt (y mo d h mi s : Nat) : String :=
  pad4 y ++ "/" ++ pad2 mo ++ "/" ++ pad2 d ++ " " ++
    pad2 h ++ ":" ++ pad2 mi ++ ":" ++ pad2 s

mutual

/-- Python `str(v)` for the values the client can be handed, used only by the
fall-through branch of `_timestr` (for containers this renders the elements
recursively; no claim depends on that branch). -/
def pyStr : PyVal → String
  | .pynone => "None"
  | .pybool b => if b then "True" else "False"
  | .pyint n => toString n
  | .pystr s => s
  | .pydatetime y mo d h mi s => strftimeDashFmt y mo d h mi s
  | .pylist xs => "[" ++ pyStrList xs ++ "]"
  | .pydict kvs => "\x7b" ++ pyStrDict kvs ++ "\x7d"

/-- Comma-separated rendering of a list's elements. -/
def pyStrList : List PyVal → String
  | [] => ""
  | [v] => pyStr v
  | v :: rest => pyStr v ++ ", " ++ pyStrList rest

/-- Comma-separated rendering of a dict's entries. -/
def pyStrDict : List (String × PyVal) → String
  | [] => ""
  | [(k, v)] => k ++ ": " ++ pyStr v
  | (k, v) :: rest => k ++ ": " ++ pyStr v ++ ", " ++ pyStrDict rest

end

/-- `_timestr(dt)` (client.py 11-20): `None` stays `None`; anything with
`strftime` (a `datetime`) becomes its `'%Y-%m-%d %H:%M:%S'` rendering;
anything else becomes `str(dt)`. -/
def _timestr : PyVal → PyVal
  | .pynone => .pynone
  | .pydatetime y mo d h mi s => .pystr (strftimeDashFmt y mo d h mi s)
  | v => .pystr (pyStr v)

/-- Day count of a month, Gregorian. -/
def daysInMonth (y m : Nat) : Nat :=
  if m == 2 then (if (y % 4 == 0 && y % 100 != 0) || y % 400 == 0 then 29 else 28)
  else if m == 4 || m == 6 || m == 9 || m == 11 then 30
  else 31

/-- `timedelta(days=1)` added to a civil datetime: bump the day, rolling the
month and year over at the calendar boundaries; the time of day is
unchanged. -/
def addOneDay (y mo d h mi s : Nat) : Nat × Nat × Nat × Nat × Nat × Nat :=
  if d < daysInMonth y mo then (y, mo, d + 1, h, mi, s)
  else if mo < 12 then (y, mo + 1, 1, h, mi, s)
  else (y + 1, 1, 1, h, mi, s)

/-- The `expires` value of `_auth`:
`(datetime.utcnow() + timedelta(days=1)).strftime('%Y/%m/%d %H:%M:%S')`, with
the call-time `utcnow()` passed in as six civil fields. -/
def expiresString (y mo d h mi s : Nat) : String :=
  let e := addOneDay y mo d h mi s
  strftimeSlashFmt e.1 e.2.1 e.2.2.1 e.2.2.2.1 e.2.2.2.2.1 e.2.2.2.2.2

/-- `TransloadIt._auth` (client.py 56-60): the dict
`{key: self.key, expires: (utcnow() + timedelta(days=1)).strftime('%Y/%m/%d %H:%M:%S')}`. -/
def TransloadIt._auth (key : String) (y mo d h mi s : Nat) : JObj :=
  [("key", .pystr key), ("expires", .pystr (expiresString y mo d h mi s))]

/-- Python dict assignment `d[k] = v`: replace in place when the key exists,
else append. -/
def dictSet (d : JObj) (k : String) (v : PyVal) : JObj :=
  match d with
  | [] => [(k, v)]
  | (k', v') :: rest =>
    if k' == k then (k', v) :: rest else (k', v') :: dictSet rest k v

/-- The per-kwarg body of the loop in `_params` (client.py 64-70): skip
`None`, convert a `datetime` through `_timestr`, store anything else
unchanged. -/
def paramsStore (d : JObj) (kv : String × PyVal) : JObj :=
  match kv.2 with
  | .pynone => d
  | .pydatetime y mo dd h mi s => dictSet d kv.1 (_timestr (.pydatetime y mo dd h mi s))
  | v => dictSet d kv.1 v

/-- `TransloadIt._params(**kwargs)` (client.py 62-71): start from
`{auth: self._auth()}` and fold the kwargs through the loop body. -/
def TransloadIt._params (key : String) (y mo d h mi s : Nat)
    (kwargs : List (String × PyVal)) : JObj :=
  kwargs.foldl paramsStore [("auth", .pydict (TransloadIt._auth key y mo d h mi s))]

/-- The shape `"NNNNxNNxNN NN:NN:NN"` of a 19-character timestamp whose date
separator is `sep`: the spec's `YYYY-MM-DD HH:MM:SS` is `timestampShape '-'`,
the code's slashed rendering is `timestampShape '/'`. -/
def timestampShape (sep : Char) (str : String) : Bool :=
  match str.data with
  | [y1, y2, y3, y4, a, mo1, mo2, b, d1, d2, sp, h1, h2, c, mi1, mi2, e, s1, s2] =>
    [y1, y2, y3, y4, mo1, mo2, d1, d2, h1, h2, mi1, mi2, s1, s2].all Char.isDigit
      && a == sep && b == sep && sp == ' ' && c == ':' && e == ':'
  | _ => false

/-- A server whose every page reports `count = 2` but carries a single item:
the listing generator's first fetch at `page = 1`, `pagesize = 2` yields one
item and then stops, because `1 * 2 < 2` fails even though only one of the
two reported items was yielded. -/
def cexServer : Nat → PageResult := fun _ => ⟨2, [[("id", PyVal.pystr "a")]]⟩

/-! ### `hashlib.sha1`, `hmac` and `TransloadIt.sign`

Byte strings are `List Nat` (each entry a byte value); 32-bit words are `Nat`
reduced modulo `2 ^ 32` wherever an overflow matters. -/

/-- Truncation to a 32-bit word. -/
def w32 (n : Nat) : Nat := n % 4294967296

/-- Left rotation of a 32-bit word by `k` places. -/
def rotl32 (k n : Nat) : Nat := w32 (n <<< k) ||| (w32 n >>> (32 - k))

/-- Big-endian bytes of `n`, `k` of them, most significant first. -/
def beBytes (k n : Nat) : List Nat :=
  (List.range k).map fun i => (n >>> (8 * (k - 1 - i))) % 256

/-- The 32-bit word read big-endian from a list of bytes. -/
def beWord (bs : List Nat) : Nat := bs.foldl (fun acc b => acc * 256 + b % 256) 0

/-- SHA-1 padding: append `0x80`, then zero bytes up to 56 mod 64, then the
original length in bits as eight big-endian bytes. -/
def sha1pad (msg : List Nat) : List Nat :=
  msg ++ [128] ++ List.replicate ((119 - msg.length % 64) % 64) 0
    ++ beBytes 8 (msg.length * 8)

/-- A padded message split into 64-byte blocks. -/
def chunks64 (l : List Nat) : List (List Nat) :=
  if h : l = [] then [] else l.take 64 :: chunks64 (l.drop 64)
termination_by l.length
decreasing_by
  simp only [List.length_drop]
  exact Nat.sub_lt (List.length_pos.mpr h) (by omega)

/-- A 64-byte block read as sixteen big-endian 32-bit words. -/
def blockWords (block : List Nat) : List Nat :=
  (List.range 16).map fun i => beWord ((block.drop (4 * i)).take 4)

/-- The SHA-1 message schedule: extend sixteen words to eighty with
`w[t] = rotl1 (w[t-3] xor w[t-8] xor w[t-14] xor w[t-16])`. -/
def extendWords (ws : List Nat) : Nat → List Nat
  | 0 => ws
  | n + 1 =>
    let ws' := extendWords ws n
    let t := ws'.length
    ws' ++ [rotl32 1 (ws'.getD (t - 3) 0 ^^^ ws'.getD (t - 8) 0 ^^^
      ws'.getD (t - 14) 0 ^^^ ws'.getD (t - 16) 0)]

/-- The SHA-1 round function for round `t`. -/
def sha1f (t b c d : Nat) : Nat :=
  if t < 20 then (b &&& c) ||| ((4294967295 - w32 b) &&& d)
  else if t < 40 then b ^^^ c ^^^ d
  else if t < 60 then (b &&& c) ||| (b &&& d) ||| (c &&& d)
  else b ^^^ c ^^^ d

/-- The SHA-1 round constant for round `t`. -/
def sha1k (t : Nat) : Nat :=
  if t < 20 then 1518500249
  else if t < 40 then 1859775393
  else if t < 60 then 2400959708
  else 3395469782

/-- The five chaining words of SHA-1. -/
structure SHA1State where
  h0 : Nat
  h1 : Nat
  h2 : Nat
  h3 : Nat
  h4 : Nat

/-- One SHA-1 round applied to the working registers. -/
def sha1round (r : Nat × Nat × Nat × Nat × Nat) (tw : Nat × Nat) :
    Nat × Nat × Nat × Nat × Nat :=
  let (a, b, c, d, e) := r
  let temp := w32 (rotl32 5 a + sha1f tw.1 b c d + e + sha1k tw.1 + tw.2)
  (temp, a, rotl32 30 b, c, d)

/-- Compression of one 64-byte block into the chaining state. -/
def sha1block (st : SHA1State) (block : List Nat) : SHA1State :=
  let ws := extendWords (blockWords block) 64
  let r := ((List.range 80).zip ws).foldl sha1round (st.h0, st.h1, st.h2, st.h3, st.h4)
  ⟨w32 (st.h0 + r.1), w32 (st.h1 + r.2.1), w32 (st.h2 + r.2.2.1),
    w32 (st.h3 + r.2.2.2.1), w32 (st.h4 + r.2.2.2.2)⟩

/-- The SHA-1 initial chaining state. -/
def sha1init : SHA1State :=
  ⟨1732584193, 4023233417, 2562383102, 271733878, 3285377520⟩

/-- `hashlib.sha1(msg).digest()`: the 20-byte SHA-1 digest. -/
def sha1 (msg : List Nat) : List Nat :=
  let fin := (chunks64 (sha1pad msg)).foldl sha1block sha1init
  beBytes 4 fin.h0 ++ beBytes 4 fin.h1 ++ beBytes 4 fin.h2 ++
    beBytes 4 fin.h3 ++ beBytes 4 fin.h4

/-- `hmac.new(key, msg, hashlib.sha1).digest()`, as Python's `hmac` module
computes it: keys longer than the 64-byte block are hashed first, the key is
zero padded to 64 bytes, and the digest is
`sha1((key xor opad) + sha1((key xor ipad) + msg))` with `ipad = 0x36`,
`opad = 0x5c`. -/
def hmacNewSha1 (key msg : List Nat) : List Nat :=
  let k0 := if 64 < key.length then sha1 key else key
  let kp := k0 ++ List.replicate (64 - k0.length) 0
  sha1 ((kp.map fun b => b % 256 ^^^ 92) ++
    sha1 ((kp.map fun b => b % 256 ^^^ 54) ++ msg))

/-- The lowercase hexadecimal character for `n < 16`. -/
def hexChar (n : Nat) : Char :=
  if n < 10 then Char.ofNat (48 + n) else Char.ofNat (87 + n)

/-- The two lowercase hex characters of one byte. -/
def byteHex (b : Nat) : List Char := [hexChar (b % 256 / 16), hexChar (b % 16)]

/-- `.hexdigest()`: the digest bytes rendered as lowercase hexadecimal. -/
def hexdigest (bs : List Nat) : String := ⟨bs.foldr (fun b acc => byteHex b ++ acc) []⟩

/-- `TransloadIt.sign(params)` (client.py 50-54):
`hmac.new(self.secret, params, hashlib.sha1).hexdigest()`; the secret and the
serialized params are byte strings. -/
def TransloadIt.sign (secret params : List Nat) : String :=
  hexdigest (hmacNewSha1 secret params)

/-- Modelled from the spec's words, to be compared with `TransloadIt.sign`:
the HMAC-SHA1 digest of the message keyed by the secret, per the textbook
construction `H((K xor opad) ∥ H((K xor ipad) ∥ m))` over the 64-byte block,
where `K` is the secret zero padded to the block size (hashed first when
longer than a block). -/
def specHmacSha1 (secret msg : List Nat) : List Nat :=
  let K :=
    if secret.length ≤ 64 then secret ++ List.replicate (64 - secret.length) 0
    else sha1 secret ++ List.replicate 44 0
  let inner := sha1 ((List.zipWith (fun a b => a % 256 ^^^ b) K (List.replicate 64 54)) ++ msg)
  sha1 ((List.zipWith (fun a b => a % 256 ^^^ b) K (List.replicate 64 92)) ++ inner)

/-- A character of a lowercase hex rendering: a digit or `a`–`f`. -/
def isLowerHex (c : Char) : Bool := c.isDigit || ('a' ≤ c && c ≤ 'f')

/-! ### Helper lemmas -/

/-- The guarded error check of `_parse_response` coincides with the spec's
"body is JSON containing a truthy `error` field": a truthy `error` entry
already forces the dict to be non-empty. -/
theorem jsonTruthy_and_error (r : Response) :
    (jsonTruthy r.json && truthyOpt (jsonGet r.json "error")) = bodyDeclaresError r := by
  rcases r with ⟨st, tx, j⟩
  rcases j with _ | d
  · rfl
  · cases d with
    | nil => rfl
    | cons kv rest => simp [jsonTruthy, jsonGet, bodyDeclaresError, List.isEmpty]

/-- `eqPyStr` holds exactly on the equal string value. -/
theorem eqPyStr_eq_true_iff (v : PyVal) (s : String) :
    v.eqPyStr s = true ↔ v = .pystr s := by
  cases v <;> simp [PyVal.eqPyStr]

end Transloader

namespace Transloader

/-! ### The claims -/

/-- C3: for every HTTP response, `_parse_response` raises `TransloadItError`
exactly when the body is a JSON object with a truthy `error` field (then the
error carries the body's `message`, the `error` value as code, and the HTTP
status) or the HTTP status is outside `[200, 400)` (then it carries the raw
body text, a null code, and the status); otherwise the response is returned
unchanged, with the error-body case taking precedence. -/
theorem parse_response_spec (r : Response) :
    _parse_response r =
      (if bodyDeclaresError r then
        Except.error ⟨jsonGet r.json "message", jsonGet r.json "error", r.status_code⟩
      else if statusOutside r then
        Except.error ⟨some (.pystr r.text), Option.none, r.status_code⟩
      else Except.ok r) ∧
    isRemoteError (_parse_response r) = (bodyDeclaresError r || statusOutside r) := by
  have heq : _parse_response r =
      (if bodyDeclaresError r then
        Except.error ⟨jsonGet r.json "message", jsonGet r.json "error", r.status_code⟩
      else if statusOutside r then
        Except.error ⟨some (.pystr r.text), Option.none, r.status_code⟩
      else Except.ok r) := by
    unfold _parse_response
    rw [jsonTruthy_and_error]
    rfl
  refine ⟨heq, ?_⟩
  rw [heq]
  cases hB : bodyDeclaresError r <;> cases hS : statusOutside r <;>
    simp [isRemoteError, hB, hS]

/-- C2 (amended): `completed` is true iff the info mapping binds `ok` to the
string `"ASSEMBLY_COMPLETED"`, `canceled` iff to `"ASSEMBLY_CANCELED"`; for
any other value bound to `ok` both come back false; but when `ok` is absent
from the info mapping both accessors raise `KeyError('ok')` instead of
returning false. -/
theorem completed_canceled_ok_field (info : JObj) :
    (Assembly.completed info = Except.ok true ↔
      jget info "ok" = some (.pystr "ASSEMBLY_COMPLETED")) ∧
    (Assembly.canceled info = Except.ok true ↔
      jget info "ok" = some (.pystr "ASSEMBLY_CANCELED")) ∧
    (∀ v, jget info "ok" = some v →
      Assembly.completed info = Except.ok (v.eqPyStr "ASSEMBLY_COMPLETED") ∧
      Assembly.canceled info = Except.ok (v.eqPyStr "ASSEMBLY_CANCELED")) ∧
    (jget info "ok" = Option.none →
      Assembly.completed info = Except.error "ok" ∧
      Assembly.canceled info = Except.error "ok") := by
  unfold Assembly.completed Assembly.canceled dictItem
  cases h : jget info "ok" with
  | none => simp [Except.map]
  | some v =>
    refine ⟨?_, ?_, fun w hw => ?_, fun hnone => Option.noConfusion hnone⟩
    · simp [Except.map, eqPyStr_eq_true_iff]
    · simp [Except.map, eqPyStr_eq_true_iff]
    · cases hw
      exact ⟨rfl, rfl⟩

/-- C2 counterexample: on an info mapping with no `ok` field the code raises
`KeyError('ok')`; it does not return false as the claim states. -/
theorem completed_keyerror_on_absent_ok_cex :
    Assembly.completed [] = Except.error "ok" ∧
    Assembly.completed [] ≠ Except.ok false ∧
    Assembly.canceled [] = Except.error "ok" ∧
    Assembly.canceled [] ≠ Except.ok false := by
  refine ⟨rfl, fun h => Except.noConfusion h, rfl, fun h => Except.noConfusion h⟩

/-- C10: `completed` and `canceled` are never both true on the same info
mapping — both compare the single `ok` entry, and it cannot equal the two
distinct status strings at once (when `ok` is absent, both raise rather than
hold). -/
theorem completed_canceled_mutually_exclusive (info : JObj) :
    (isOkTrue (Assembly.completed info) && isOkTrue (Assembly.canceled info)) = false := by
  unfold Assembly.completed Assembly.canceled dictItem
  cases h : jget info "ok" with
  | none => rfl
  | some v =>
    cases v <;> simp only [Except.map, isOkTrue, PyVal.eqPyStr, Bool.and_false,
      Bool.false_and] <;> first
      | rfl
      | (rename_i t
         by_cases ht : t = "ASSEMBLY_COMPLETED" <;>
           simp [ht, isOkTrue])

/-- C8: `cancel()` issues the DELETE and leaves the assembly's local state
unchanged — the same object, hence the same `url` and the same cached
`_info`, whatever the DELETE response was. -/
theorem cancel_leaves_state_unchanged (a : Assembly) (resp : Response) :
    (Assembly.cancel a resp).2 = a ∧
    (Assembly.cancel a resp).2.url = a.url ∧
    (Assembly.cancel a resp).2._info = a._info :=
  ⟨rfl, rfl, rfl⟩

/-- C9: `cancel()` does not run the response through `_parse_response`: even
for a reply on which `_parse_response` would raise a `TransloadItError`,
`cancel` hands back the raw DELETE response. -/
theorem cancel_returns_raw_response (a : Assembly) (resp : Response)
    (e : TransloadItError) (h : _parse_response resp = Except.error e) :
    (Assembly.cancel a resp).1 = resp := rfl

/-- C9 witness: a status-500 non-JSON reply makes `_parse_response` raise,
yet `cancel` returns it as-is. -/
theorem cancel_returns_raw_response_witness :
    (Assembly.cancel ⟨"http://u", Option.none⟩ ⟨500, "boom", Option.none⟩).1 =
      ⟨500, "boom", Option.none⟩ :=
  cancel_returns_raw_response ⟨"http://u", Option.none⟩ ⟨500, "boom", Option.none⟩
    ⟨some (.pystr "boom"), Option.none, 500⟩ rfl

/-- An assembly whose cell holds a non-empty dict answers every `info` read
from the cache: no fetch, no state change. -/
theorem accessRun_cached (a : Assembly) (doc d : JObj) (hd : a._info = some d)
    (hne : d.isEmpty = false) (n : Nat) : a.accessRun doc n = (a, 0) := by
  induction n with
  | zero => rfl
  | succ m ih =>
    have habs : infoAbsent a._info = false := by rw [hd]; exact hne
    simp [Assembly.accessRun, Assembly.infoAccess, habs, ih]

/-- C4 (amended): for every assembly and every non-empty status document,
`info` fetches at most once across arbitrarily many reads until `refresh()`;
`refresh()` clears the `_info` cell and immediately re-reads `info`, so the
one further fetch happens on that next read — inside `refresh` itself — and
the fresh document is cached, after which further reads fetch nothing.  (For
an empty status document the falsy-cache test re-fetches on every read; see
the counterexample.) -/
theorem info_cached_refresh_refetches (a : Assembly) (doc : JObj) (n : Nat)
    (hdoc : doc.isEmpty = false) :
    (a.accessRun doc n).2 ≤ 1 ∧
    (a.refresh doc).2.2 = 1 ∧
    (a.refresh doc).2.1._info = some doc ∧
    ((a.refresh doc).2.1.accessRun doc n).2 = 0 := by
  have hrefresh : a.refresh doc = (doc, { a with _info := some doc }, 1) := rfl
  refine ⟨?_, by rw [hrefresh], by rw [hrefresh], ?_⟩
  · cases habs : infoAbsent a._info with
    | false =>
      rcases ha : a._info with _ | d
      · rw [ha] at habs
        exact absurd habs (by simp [infoAbsent])
      · have hne : d.isEmpty = false := by
          rw [ha] at habs
          exact habs
        rw [accessRun_cached a doc d ha hne n]
        exact Nat.zero_le 1
    | true =>
      cases n with
      | zero => exact Nat.zero_le 1
      | succ m =>
        have hstep : a.infoAccess doc = (doc, { a with _info := some doc }, 1) := by
          simp [Assembly.infoAccess, habs]
        simp [Assembly.accessRun, hstep,
          accessRun_cached { a with _info := some doc } doc doc rfl hdoc m]
  · rw [hrefresh, accessRun_cached { a with _info := some doc } doc doc rfl hdoc n]

/-- C4 witness: a freshly constructed assembly, a one-entry status document,
three reads and a refresh. -/
theorem info_cached_refresh_refetches_witness :
    ((Assembly.mk "http://u" Option.none).accessRun
        [("ok", PyVal.pystr "ASSEMBLY_COMPLETED")] 3).2 ≤ 1 ∧
    ((Assembly.mk "http://u" Option.none).refresh
        [("ok", PyVal.pystr "ASSEMBLY_COMPLETED")]).2.2 = 1 ∧
    ((Assembly.mk "http://u" Option.none).refresh
        [("ok", PyVal.pystr "ASSEMBLY_COMPLETED")]).2.1._info =
      some [("ok", PyVal.pystr "ASSEMBLY_COMPLETED")] ∧
    (((Assembly.mk "http://u" Option.none).refresh
        [("ok", PyVal.pystr "ASSEMBLY_COMPLETED")]).2.1.accessRun
        [("ok", PyVal.pystr "ASSEMBLY_COMPLETED")] 3).2 = 0 :=
  info_cached_refresh_refetches (Assembly.mk "http://u" Option.none)
    [("ok", PyVal.pystr "ASSEMBLY_COMPLETED")] 3 rfl

/-- C4 counterexample: when the server's status document is the empty JSON
object, the cached `{}` is falsy, so two consecutive `info` reads — with no
intervening `refresh` — perform two fetches, not at most one. -/
theorem info_refetches_on_empty_doc_cex :
    ((Assembly.mk "http://u" Option.none).accessRun [] 2).2 = 2 ∧
    ¬(((Assembly.mk "http://u" Option.none).accessRun [] 2).2 ≤ 1) := by
  exact ⟨rfl, by decide⟩

/-- The listing loop from page 1 over full pages keeps
`yielded = (page - 1) * pagesize` while it is still running. -/
theorem assemblies_fullPages_invariant (server : Nat → PageResult) (pagesize : Nat)
    (hfull : ∀ p, (server p).items.length = pagesize) (n : Nat) :
    1 ≤ (assembliesRun server pagesize (listStart 1) n).page ∧
    ((assembliesRun server pagesize (listStart 1) n).done = false →
      (assembliesRun server pagesize (listStart 1) n).yielded.length =
        ((assembliesRun server pagesize (listStart 1) n).page - 1) * pagesize) := by
  induction n with
  | zero => exact ⟨Nat.le_refl 1, fun _ => by simp [assembliesRun, listStart]⟩
  | succ m ih =>
    have hrun : assembliesRun server pagesize (listStart 1) (m + 1) =
        assembliesStep server pagesize (assembliesRun server pagesize (listStart 1) m) :=
      rfl
    set t := assembliesRun server pagesize (listStart 1) m with ht
    rw [hrun]
    by_cases hd : t.done = true
    · simp only [assembliesStep, hd, if_true]
      exact ⟨ih.1, fun h => Bool.noConfusion h⟩
    · have hd' : t.done = false := by
        revert hd
        cases t.done <;> simp
      by_cases hemp : (server t.page).items.isEmpty = true
      · simp only [assembliesStep, hd', if_false, hemp, if_true, Bool.false_eq_true]
        exact ⟨ih.1, by simp⟩
      · by_cases hlt : t.page * pagesize < (server t.page).count
        · simp only [assembliesStep, hd', hemp, hlt, if_true, if_false, Bool.false_eq_true]
          refine ⟨Nat.le_succ_of_le ih.1, fun _ => ?_⟩
          have hy := ih.2 hd'
          have hp : t.page - 1 + 1 = t.page := Nat.succ_pred_eq_of_pos ih.1
          simp only [List.length_append, hy, hfull t.page]
          calc (t.page - 1) * pagesize + pagesize
              = (t.page - 1 + 1) * pagesize := (Nat.succ_mul (t.page - 1) pagesize).symm
            _ = t.page * pagesize := by rw [hp]
            _ = (t.page + 1 - 1) * pagesize := by simp
        · simp only [assembliesStep, hd', hemp, hlt, if_false, if_true, Bool.false_eq_true]
          exact ⟨ih.1, by simp⟩

/-- C1 (amended): the listing generator stops when a fetched page returns
zero items, or when `page * pagesize` — computed from the page number, not
from the items actually yielded — reaches the page's reported `count`;
otherwise it increments the page and fetches again, and once stopped it never
fetches again.  When the listing starts at page 1 and every page is full
(exactly `pagesize` items), `page * pagesize` coincides with the running
yielded count, which is the reading the original claim describes. -/
theorem assemblies_pagination_policy (server : Nat → PageResult) (pagesize : Nat)
    (s : ListState) :
    (s.done = true → assembliesStep server pagesize s = s) ∧
    (s.done = false → (server s.page).items = [] →
      assembliesStep server pagesize s =
        { s with fetches := s.fetches + 1, done := true }) ∧
    (s.done = false → (server s.page).items ≠ [] →
      s.page * pagesize < (server s.page).count →
      assembliesStep server pagesize s =
        ⟨s.page + 1, s.yielded ++ (server s.page).items, s.fetches + 1, false⟩) ∧
    (s.done = false → (server s.page).items ≠ [] →
      ¬(s.page * pagesize < (server s.page).count) →
      assembliesStep server pagesize s =
        ⟨s.page, s.yielded ++ (server s.page).items, s.fetches + 1, true⟩) ∧
    (∀ n, (∀ p, (server p).items.length = pagesize) →
      (assembliesRun server pagesize (listStart 1) n).done = false →
      (assembliesRun server pagesize (listStart 1) n).yielded.length =
        ((assembliesRun server pagesize (listStart 1) n).page - 1) * pagesize) := by
  refine ⟨?_, ?_, ?_, ?_, fun n hfull => (assemblies_fullPages_invariant server pagesize hfull n).2⟩
  · intro hd
    simp [assembliesStep, hd]
  · intro hd hemp
    simp [assembliesStep, hd, hemp]
  · intro hd hne hlt
    have hemp : (server s.page).items.isEmpty = false := by
      revert hne
      cases (server s.page).items <;> simp
    simp [assembliesStep, hd, hemp, hlt]
  · intro hd hne hge
    have hemp : (server s.page).items.isEmpty = false := by
      revert hne
      cases (server s.page).items <;> simp
    simp [assembliesStep, hd, hemp, hge]

/-- `beBytes` emits exactly `k` bytes. -/
theorem beBytes_length (k n : Nat) : (beBytes k n).length = k := by
  simp [beBytes]

/-- A SHA-1 digest is 20 bytes long. -/
theorem sha1_length (msg : List Nat) : (sha1 msg).length = 20 := by
  simp [sha1, beBytes_length]

/-- Zipping a list against a long-enough replicated constant is a map. -/
theorem zipWith_replicate_eq_map (f : Nat → Nat → Nat) (l : List Nat) (c n : Nat)
    (h : l.length = n) : List.zipWith f l (List.replicate n c) = l.map fun a => f a c := by
  induction l generalizing n with
  | nil => subst h; rfl
  | cons a t ih =>
    subst h
    simp [List.replicate_succ, ih t.length rfl]

/-- The `hmac` module's computation coincides with the textbook HMAC-SHA1
construction written from the spec's words. -/
theorem hmacNew_eq_spec (key msg : List Nat) : hmacNewSha1 key msg = specHmacSha1 key msg := by
  unfold hmacNewSha1 specHmacSha1
  by_cases h : key.length ≤ 64
  · have h' : ¬(64 < key.length) := by omega
    simp only [h, h', if_true, if_false, if_pos, if_neg, not_false_iff]
    have hlen : (key ++ List.replicate (64 - key.length) 0).length = 64 := by
      simp
      omega
    rw [zipWith_replicate_eq_map _ _ 54 64 hlen, zipWith_replicate_eq_map _ _ 92 64 hlen]
  · have h' : 64 < key.length := by omega
    simp only [h, h', if_true, if_false, if_pos, if_neg, not_false_iff]
    have hlen : (sha1 key ++ List.replicate (64 - (sha1 key).length) 0).length = 64 := by
      simp [sha1_length]
    have h44 : 64 - (sha1 key).length = 44 := by
      rw [sha1_length]
    rw [h44, zipWith_replicate_eq_map _ _ 54 64 (h44 ▸ hlen),
      zipWith_replicate_eq_map _ _ 92 64 (h44 ▸ hlen)]

/-- Both characters of a byte's hex rendering are lowercase hex. -/
theorem byteHex_lower (b : Nat) : (byteHex b).all isLowerHex = true := by
  have h16 : ∀ m, m < 16 → isLowerHex (hexChar m) = true := by decide
  simp only [byteHex, List.all_cons, List.all_nil, Bool.and_true]
  have h1 : b % 256 / 16 < 16 := by omega
  have h2 : b % 16 < 16 := by omega
  rw [h16 _ h1, h16 _ h2]
  rfl

/-- Every character a hexdigest emits is lowercase hex. -/
theorem hexdigest_lower (bs : List Nat) : (hexdigest bs).data.all isLowerHex = true := by
  unfold hexdigest
  induction bs with
  | nil => rfl
  | cons b t ih =>
    simp only [List.foldr_cons, List.all_append]
    rw [byteHex_lower]
    exact ih

/-- C5: `TransloadIt.sign` is deterministic — equal secrets and serialized
params give the byte-equal signature — and equals the HMAC-SHA1 digest of the
serialized params keyed by the secret, rendered as lowercase hexadecimal
characters. -/
theorem sign_is_hmac_sha1_lowercase_hex (secret params : List Nat) :
    TransloadIt.sign secret params = hexdigest (specHmacSha1 secret params) ∧
    (TransloadIt.sign secret params).data.all isLowerHex = true ∧
    (∀ secret2 params2, secret2 = secret → params2 = params →
      TransloadIt.sign secret2 params2 = TransloadIt.sign secret params) := by
  refine ⟨?_, ?_, fun s2 p2 hs hp => by rw [hs, hp]⟩
  · unfold TransloadIt.sign
    rw [hmacNew_eq_spec]
  · exact hexdigest_lower _

/-- Assigning `d[k] = v` makes `k` read back as `v`. -/
theorem jget_dictSet_self (d : JObj) (k : String) (v : PyVal) :
    jget (dictSet d k v) k = some v := by
  induction d with
  | nil => simp [dictSet, jget]
  | cons kv rest ih =>
    rcases kv with ⟨k1, v1⟩
    by_cases h : k1 = k
    · subst h
      simp [dictSet, jget]
    · have hb : (k1 == k) = false := by simp [h]
      simp [dictSet, jget, hb, ih]

/-- Assigning `d[k] = v` leaves every other key's reading alone. -/
theorem jget_dictSet_other (d : JObj) (k k2 : String) (v : PyVal) (h : k2 ≠ k) :
    jget (dictSet d k v) k2 = jget d k2 := by
  have hb : (k == k2) = false := by simp [Ne.symm h]
  induction d with
  | nil => simp [dictSet, jget, hb]
  | cons kv rest ih =>
    rcases kv with ⟨k1, v1⟩
    by_cases h1 : k1 = k
    · subst h1
      simp [dictSet, jget, hb]
    · have hb1 : (k1 == k) = false := by simp [h1]
      simp [dictSet, jget, hb1, ih]

/-- The `_params` loop body touches no key other than the one it stores. -/
theorem jget_paramsStore_other (d : JObj) (kv : String × PyVal) (k2 : String)
    (h : k2 ≠ kv.1) : jget (paramsStore d kv) k2 = jget d k2 := by
  rcases kv with ⟨k1, v1⟩
  cases v1 <;>
    first
      | rfl
      | exact jget_dictSet_other d k1 k2 _ h

/-- What the `_params` loop body stores under `k` does not depend on the rest
of the dict, as long as `k` read the same before. -/
theorem jget_paramsStore_agree (d d2 : JObj) (k : String) (v : PyVal)
    (h : jget d k = jget d2 k) :
    jget (paramsStore d (k, v)) k = jget (paramsStore d2 (k, v)) k := by
  cases v <;> simp [paramsStore, jget_dictSet_self, h]

/-- Folding kwargs that never mention `k` leaves `k`'s reading alone. -/
theorem jget_params_fold_not_mem (kwargs : List (String × PyVal)) (d0 : JObj)
    (k : String) (h : k ∉ kwargs.map Prod.fst) :
    jget (kwargs.foldl paramsStore d0) k = jget d0 k := by
  induction kwargs generalizing d0 with
  | nil => rfl
  | cons kv rest ih =>
    simp only [List.map_cons, List.mem_cons, not_or] at h
    rw [List.foldl_cons, ih _ h.2, jget_paramsStore_other _ _ _ h.1]

/-- With distinct kwarg names, `k`'s reading after the whole fold is what the
single store of `(k, v)` leaves. -/
theorem jget_params_fold_mem (kwargs : List (String × PyVal)) (d0 : JObj)
    (k : String) (v : PyVal) (hnd : (kwargs.map Prod.fst).Nodup)
    (hmem : (k, v) ∈ kwargs) :
    jget (kwargs.foldl paramsStore d0) k = jget (paramsStore d0 (k, v)) k := by
  induction kwargs generalizing d0 with
  | nil => cases hmem
  | cons kv rest ih =>
    rw [List.map_cons] at hnd
    have hhead : kv.1 ∉ rest.map Prod.fst := (List.nodup_cons.mp hnd).1
    have hnd' : (rest.map Prod.fst).Nodup := (List.nodup_cons.mp hnd).2
    rw [List.foldl_cons]
    rcases List.mem_cons.mp hmem with heq | hrest
    · rw [← heq] at hhead
      rw [← heq]
      exact jget_params_fold_not_mem rest (paramsStore d0 (k, v)) k hhead
    · have hne : k ≠ kv.1 := by
        intro he
        exact hhead (he ▸ List.mem_map.mpr ⟨(k, v), hrest, rfl⟩)
      rw [ih _ hnd' hrest]
      exact jget_paramsStore_agree _ _ k v (jget_paramsStore_other d0 kv k hne)

/-- A rendered digit is a digit character. -/
theorem isDigit_digitChar (n : Nat) : (digitChar n).isDigit = true := by
  have h : ∀ m, m < 10 → (Char.ofNat (48 + m)).isDigit = true := by decide
  exact h (n % 10) (Nat.mod_lt n (by omega))

/-- The dashed strftime rendering always has the `YYYY-MM-DD HH:MM:SS`
shape. -/
theorem timestampShape_dash (y mo d h mi s : Nat) :
    timestampShape '-' (strftimeDashFmt y mo d h mi s) = true := by
  have hdata : (strftimeDashFmt y mo d h mi s).data =
      [digitChar (y / 1000), digitChar (y / 100), digitChar (y / 10), digitChar y, '-',
       digitChar (mo / 10), digitChar mo, '-', digitChar (d / 10), digitChar d, ' ',
       digitChar (h / 10), digitChar h, ':', digitChar (mi / 10), digitChar mi, ':',
       digitChar (s / 10), digitChar s] := by
    simp [strftimeDashFmt, pad4, pad2]
  simp [timestampShape, hdata, isDigit_digitChar]

/-- The slashed strftime rendering always has the `YYYY/MM/DD HH:MM:SS`
shape. -/
theorem timestampShape_slash (y mo d h mi s : Nat) :
    timestampShape '/' (strftimeSlashFmt y mo d h mi s) = true := by
  have hdata : (strftimeSlashFmt y mo d h mi s).data =
      [digitChar (y / 1000), digitChar (y / 100), digitChar (y / 10), digitChar y, '/',
       digitChar (mo / 10), digitChar mo, '/', digitChar (d / 10), digitChar d, ' ',
       digitChar (h / 10), digitChar h, ':', digitChar (mi / 10), digitChar mi, ':',
       digitChar (s / 10), digitChar s] := by
    simp [strftimeSlashFmt, pad4, pad2]
  simp [timestampShape, hdata, isDigit_digitChar]

/-- C6: in the params mapping `_params` builds, a null-valued kwarg leaves no
key at all, a datetime-valued kwarg is stored as its
`'%Y-%m-%d %H:%M:%S'` rendering — which always has the
`YYYY-MM-DD HH:MM:SS` shape — and any other kwarg is stored unchanged
(`auth` is the mapping's own key, never a call-specific kwarg; Python kwargs
have distinct names). -/
theorem params_omit_null_format_datetime (key : String) (y mo d h mi s : Nat)
    (kwargs : List (String × PyVal)) (k : String) (v : PyVal)
    (hnd : (kwargs.map Prod.fst).Nodup) (hk : k ≠ "auth") (hmem : (k, v) ∈ kwargs) :
    (v = .pynone → jget (TransloadIt._params key y mo d h mi s kwargs) k = Option.none) ∧
    (∀ y2 mo2 d2 h2 mi2 s2, v = .pydatetime y2 mo2 d2 h2 mi2 s2 →
      jget (TransloadIt._params key y mo d h mi s kwargs) k =
        some (.pystr (strftimeDashFmt y2 mo2 d2 h2 mi2 s2)) ∧
      timestampShape '-' (strftimeDashFmt y2 mo2 d2 h2 mi2 s2) = true) ∧
    (v ≠ .pynone → (∀ y2 mo2 d2 h2 mi2 s2, v ≠ .pydatetime y2 mo2 d2 h2 mi2 s2) →
      jget (TransloadIt._params key y mo d h mi s kwargs) k = some v) := by
  have hauth : jget [("auth", PyVal.pydict (TransloadIt._auth key y mo d h mi s))] k =
      Option.none := by
    have hb : ("auth" == k) = false := by simp [Ne.symm hk]
    simp [jget, hb]
  have hfold := jget_params_fold_mem kwargs
    [("auth", PyVal.pydict (TransloadIt._auth key y mo d h mi s))] k v hnd hmem
  refine ⟨?_, ?_, ?_⟩
  · rintro rfl
    unfold TransloadIt._params
    rw [hfold]
    simpa [paramsStore] using hauth
  · rintro y2 mo2 d2 h2 mi2 s2 rfl
    refine ⟨?_, timestampShape_dash y2 mo2 d2 h2 mi2 s2⟩
    unfold TransloadIt._params
    rw [hfold]
    simp [paramsStore, _timestr, jget_dictSet_self]
  · intro hv hdt
    unfold TransloadIt._params
    rw [hfold]
    cases v with
    | pynone => exact absurd rfl hv
    | pydatetime a b c d2 e f => exact absurd rfl (hdt a b c d2 e f)
    | pybool b => simp [paramsStore, jget_dictSet_self]
    | pyint n2 => simp [paramsStore, jget_dictSet_self]
    | pystr s2 => simp [paramsStore, jget_dictSet_self]
    | pylist xs => simp [paramsStore, jget_dictSet_self]
    | pydict kvs => simp [paramsStore, jget_dictSet_self]

/-- C6 witness: kwargs holding a string, a datetime and a null; the datetime
kwarg `todate` is stored dashed, shaped, and the others behave as stated. -/
theorem params_omit_null_format_datetime_witness :
    ((PyVal.pydatetime 2026 10 12 1 2 3 = .pynone →
      jget (TransloadIt._params "KEY" 2026 10 12 3 4 5
        [("template_id", PyVal.pystr "tpl"), ("todate", PyVal.pydatetime 2026 10 12 1 2 3),
         ("notify_url", PyVal.pynone)]) "todate" = Option.none) ∧
    (∀ y2 mo2 d2 h2 mi2 s2,
      PyVal.pydatetime 2026 10 12 1 2 3 = .pydatetime y2 mo2 d2 h2 mi2 s2 →
      jget (TransloadIt._params "KEY" 2026 10 12 3 4 5
        [("template_id", PyVal.pystr "tpl"), ("todate", PyVal.pydatetime 2026 10 12 1 2 3),
         ("notify_url", PyVal.pynone)]) "todate" =
        some (.pystr (strftimeDashFmt y2 mo2 d2 h2 mi2 s2)) ∧
      timestampShape '-' (strftimeDashFmt y2 mo2 d2 h2 mi2 s2) = true) ∧
    (PyVal.pydatetime 2026 10 12 1 2 3 ≠ .pynone →
      (∀ y2 mo2 d2 h2 mi2 s2,
        PyVal.pydatetime 2026 10 12 1 2 3 ≠ .pydatetime y2 mo2 d2 h2 mi2 s2) →
      jget (TransloadIt._params "KEY" 2026 10 12 3 4 5
        [("template_id", PyVal.pystr "tpl"), ("todate", PyVal.pydatetime 2026 10 12 1 2 3),
         ("notify_url", PyVal.pynone)]) "todate" =
        some (PyVal.pydatetime 2026 10 12 1 2 3))) :=
  params_omit_null_format_datetime "KEY" 2026 10 12 3 4 5
    [("template_id", PyVal.pystr "tpl"), ("todate", PyVal.pydatetime 2026 10 12 1 2 3),
     ("notify_url", PyVal.pynone)] "todate" (PyVal.pydatetime 2026 10 12 1 2 3)
    (by decide) (by decide) (List.Mem.tail _ (List.Mem.head _))

/-- C7 (amended): every params mapping embeds the `auth` sub-mapping carrying
the API key and an `expires` timestamp one day after the call time, but the
timestamp is rendered with `'%Y/%m/%d %H:%M:%S'` — slashes between the date
components — not the dashed `YYYY-MM-DD HH:MM:SS` format the claim states. -/
theorem auth_params_embedded_expires (key : String) (y mo d h mi s : Nat)
    (kwargs : List (String × PyVal)) (hauth : "auth" ∉ kwargs.map Prod.fst) :
    jget (TransloadIt._params key y mo d h mi s kwargs) "auth" =
      some (.pydict (TransloadIt._auth key y mo d h mi s)) ∧
    jget (TransloadIt._auth key y mo d h mi s) "key" = some (.pystr key) ∧
    jget (TransloadIt._auth key y mo d h mi s) "expires" =
      some (.pystr (expiresString y mo d h mi s)) ∧
    expiresString y mo d h mi s =
      (let e := addOneDay y mo d h mi s
       strftimeSlashFmt e.1 e.2.1 e.2.2.1 e.2.2.2.1 e.2.2.2.2.1 e.2.2.2.2.2) ∧
    timestampShape '/' (expiresString y mo d h mi s) = true := by
  refine ⟨?_, rfl, rfl, rfl, ?_⟩
  · unfold TransloadIt._params
    rw [jget_params_fold_not_mem kwargs _ "auth" hauth]
    simp [jget]
  · unfold expiresString
    exact timestampShape_slash _ _ _ _ _ _

/-- C7 witness: a concrete call time and one kwarg. -/
theorem auth_params_embedded_expires_witness :
    jget (TransloadIt._params "KEY" 2026 10 12 3 4 5 [("page", PyVal.pyint 1)]) "auth" =
      some (.pydict (TransloadIt._auth "KEY" 2026 10 12 3 4 5)) ∧
    jget (TransloadIt._auth "KEY" 2026 10 12 3 4 5) "key" = some (.pystr "KEY") ∧
    jget (TransloadIt._auth "KEY" 2026 10 12 3 4 5) "expires" =
      some (.pystr (expiresString 2026 10 12 3 4 5)) ∧
    expiresString 2026 10 12 3 4 5 =
      (let e := addOneDay 2026 10 12 3 4 5
       strftimeSlashFmt e.1 e.2.1 e.2.2.1 e.2.2.2.1 e.2.2.2.2.1 e.2.2.2.2.2) ∧
    timestampShape '/' (expiresString 2026 10 12 3 4 5) = true :=
  auth_params_embedded_expires "KEY" 2026 10 12 3 4 5 [("page", PyVal.pyint 1)]
    (by decide)

/-- C7 counterexample: calling at 2026-10-12 00:00:00 puts
`"2026/10/13 00:00:00"` into `auth.expires` — a slashed timestamp, which does
not have the dashed `YYYY-MM-DD HH:MM:SS` shape the claim states. -/
theorem auth_expires_slash_format_cex :
    expiresString 2026 10 12 0 0 0 = "2026/10/13 00:00:00" ∧
    jget (TransloadIt._auth "KEY" 2026 10 12 0 0 0) "expires" =
      some (.pystr "2026/10/13 00:00:00") ∧
    timestampShape '-' (expiresString 2026 10 12 0 0 0) = false ∧
    timestampShape '/' (expiresString 2026 10 12 0 0 0) = true := by
  refine ⟨by decide, ?_, by decide, by decide⟩
  show some (PyVal.pystr (expiresString 2026 10 12 0 0 0)) = _
  rw [show expiresString 2026 10 12 0 0 0 = "2026/10/13 00:00:00" by decide]

/-- C1 counterexample: at `page = 1`, `pagesize = 2`, a page carrying one
item with `count = 2` makes the generator stop after a single fetch with one
item yielded — fewer than the reported count, the page non-empty — because
`1 * 2 < 2` fails; the original claim demands a further fetch here. -/
theorem assemblies_stops_short_of_count_cex :
    (assembliesStep cexServer 2 (listStart 1)).done = true ∧
    (assembliesStep cexServer 2 (listStart 1)).fetches = 1 ∧
    (assembliesStep cexServer 2 (listStart 1)).yielded.length = 1 ∧
    (cexServer 1).items ≠ [] ∧
    (assembliesStep cexServer 2 (listStart 1)).yielded.length < (cexServer 1).count ∧
    assembliesStep cexServer 2 (assembliesStep cexServer 2 (listStart 1)) =
      assembliesStep cexServer 2 (listStart 1) := by
  refine ⟨rfl, rfl, rfl, fun h => List.noConfusion h, by decide, rfl⟩

end Transloader
